import Mathlib

/-!
Verification development for the water-ripples height-field simulator.

The simulation core is the GPGPU heightmap fragment shader
(`heightmapFragment.glsl`), driven once per tick by
`GPUComputationRenderer.compute()` (ping-pong double buffering), plus the
`fillTexture` noise seeders, the `smoothWater` smoothing driver and the
`updateScene` excitation mapping found in the demo scene files
(`index.js`, `index3.js`, `index5.js`, pool scene).

Shallow embedding conventions:
* GPU texels (`vec4`) become a `Cell` of four rationals; shader floats are
  idealized as `ℚ` where only field arithmetic occurs, and as `ℝ` where the
  excitation formula needs `cos`, `π` and `sqrt`.
* The grid is a function `Fin W → Fin H → Cell`; texture lookups
  `uv ± cellSize` wrap toroidally (`Fin` addition), the boundary policy the
  closed-form test in the design document prescribes.
* The external `SimplexNoise` generator is an explicit functional parameter:
  a fixed permutation seed makes `simplex.noise` a pure function `ℚ → ℚ → ℚ`.
-/

namespace WaterRipples

/-- One texel of the heightmap: `x` = current height, `y` = height one tick
earlier, `z`,`w` carried along unused (shader comment, part_001 lines 18-20). -/
structure Cell where
  x : ℚ
  y : ℚ
  z : ℚ
  w : ℚ
deriving DecidableEq

/-- The simulation grid: one `Cell` per texel of a `W × H` texture. -/
def Grid (W H : ℕ) := Fin W → Fin H → Cell

/-- Componentwise sum of texels (GLSL `vec4` addition, used by the
smoothing kernel). -/
def Cell.add (a b : Cell) : Cell := ⟨a.x + b.x, a.y + b.y, a.z + b.z, a.w + b.w⟩

/-- Componentwise division of a texel by a scalar (GLSL `vec4 / float`). -/
def Cell.div (a : Cell) (q : ℚ) : Cell := ⟨a.x / q, a.y / q, a.z / q, a.w / q⟩

variable {W H : ℕ}

/-- `texture2D( heightmap, uv + vec2( 0.0, cellSize.y ) )` — the north
neighbour, one texel up, wrapping toroidally at the grid edge. -/
def north [NeZero W] [NeZero H] (g : Grid W H) (i : Fin W) (j : Fin H) : Cell :=
  g i (j + 1)

/-- `texture2D( heightmap, uv + vec2( 0.0, - cellSize.y ) )` — the south
neighbour. -/
def south [NeZero W] [NeZero H] (g : Grid W H) (i : Fin W) (j : Fin H) : Cell :=
  g i (j - 1)

/-- `texture2D( heightmap, uv + vec2( cellSize.x, 0.0 ) )` — the east
neighbour. -/
def east [NeZero W] [NeZero H] (g : Grid W H) (i : Fin W) (j : Fin H) : Cell :=
  g (i + 1) j

/-- `texture2D( heightmap, uv + vec2( - cellSize.x, 0.0 ) )` — the west
neighbour. -/
def west [NeZero W] [NeZero H] (g : Grid W H) (i : Fin W) (j : Fin H) : Cell :=
  g (i - 1) j

/-- Shader line 32:
`newHeight = ( ( north.x + south.x + east.x + west.x ) * 0.5 - heightmapValue.y ) * viscosityConstant`
followed by line 36 adding the mouse influence.  The per-cell excitation
value `exc i j` stands for `( cos( mousePhase ) + 1.0 ) * waveheightMultiplier`
evaluated at the cell (its real-valued formula is `excitationOfDist` below);
`exc = 0` is the no-excitation case. -/
def newHeight [NeZero W] [NeZero H] (visc : ℚ) (exc : Fin W → Fin H → ℚ)
    (g : Grid W H) (i : Fin W) (j : Fin H) : ℚ :=
  (((north g i j).x + (south g i j).x + (east g i j).x + (west g i j).x) * 0.5
      - (g i j).y) * visc
    + exc i j

/-- Shader lines 38-41: starting from the sampled texel, set
`heightmapValue.y = heightmapValue.x`, then `heightmapValue.x = newHeight`,
and emit the texel (`z`, `w` written back as sampled). -/
def kernelCell [NeZero W] [NeZero H] (visc : ℚ) (exc : Fin W → Fin H → ℚ)
    (g : Grid W H) (i : Fin W) (j : Fin H) : Cell :=
  let hm := g i j
  { hm with y := hm.x, x := newHeight visc exc g i j }

/-- The ping-pong pair of render targets of `GPUComputationRenderer`:
exactly one is current (readable), the other is the kernel's write target. -/
structure DoubleBuffer (W H : ℕ) where
  current : Grid W H
  alternate : Grid W H

/-- One `gpuCompute.compute()` tick: every cell of the alternate target is
written from the frozen current texture by the heightmap shader, then the
targets swap roles (the freshly written buffer becomes current). -/
def computeTick [NeZero W] [NeZero H] (visc : ℚ) (exc : Fin W → Fin H → ℚ)
    (db : DoubleBuffer W H) : DoubleBuffer W H :=
  { current := fun i j => kernelCell visc exc db.current i j
    alternate := db.current }

/-- The all-ones field of the design document's closed-form tick check:
`previous = current = 1.0` at every cell. -/
def onesGrid (W H : ℕ) : Grid W H := fun _ _ => ⟨1, 1, 0, 1⟩

/-- The maximum of |height| over all cells of a grid (the quantity §8 of the
design document tracks tick-over-tick). -/
def maxAbs [NeZero W] [NeZero H] (g : Grid W H) : ℚ :=
  Finset.univ.sup'
    ⟨(⟨0, Nat.pos_of_ne_zero (NeZero.ne W)⟩, ⟨0, Nat.pos_of_ne_zero (NeZero.ne H)⟩),
      Finset.mem_univ _⟩
    fun p : Fin W × Fin H => |(g p.1 p.2).x|

/-- A ±1/1000 checkerboard on a 2×2 toroidal grid with zero velocity
(`previous = current` at every cell): heights stay within 1/1000 of flat. -/
def checker2 : Grid 2 2 := fun i j =>
  if i.val = j.val then ⟨1/1000, 1/1000, 0, 1⟩ else ⟨-1/1000, -1/1000, 0, 1⟩

/-- GLSL `clamp(x, lo, hi) = min(max(x, lo), hi)`. -/
noncomputable def glslClamp (x lo hi : ℝ) : ℝ := min (max x lo) hi

/-- Shader lines 35-36 as a function of the cell-to-mouse distance `d`:
`( cos( clamp( d * π / mouseSize, 0, π ) ) + 1 ) * waveheightMultiplier`. -/
noncomputable def excitationOfDist (radius strength d : ℝ) : ℝ :=
  (Real.cos (glslClamp (d * Real.pi / radius) 0 Real.pi) + 1) * strength

/-- Shader line 35's `length( ( uv - vec2(0.5) ) * vec2(GEOM_WIDTH, GEOM_HEIGHT)
- vec2( mousePos.x, - mousePos.y ) )`: distance from the cell's world position
to the excitation point. -/
noncomputable def cellMouseDist (uv : ℝ × ℝ) (gw gh : ℝ) (mouse : ℝ × ℝ) : ℝ :=
  Real.sqrt (((uv.1 - 0.5) * gw - mouse.1) ^ 2 + ((uv.2 - 0.5) * gh - (-mouse.2)) ^ 2)

/-- The no-excitation sentinel set by every scene's `updateScene`:
`mousePos = (10000, 10000)`. -/
def sentinelMouse : ℝ × ℝ := (10000, 10000)

/-- Modelled from the spec: `smoothFragment.glsl` is not among the sources;
§4.4 of the design document describes its per-texel rule as a local-average
(box-blur-equivalent) kernel over the same 4-neighbourhood — the texel and its
four neighbours averaged componentwise. -/
def smoothKernel [NeZero W] [NeZero H] (g : Grid W H) : Grid W H := fun i j =>
  (((((g i j).add (north g i j)).add (south g i j)).add
      (east g i j)).add (west g i j)).div 5

/-- One iteration of the `smoothWater` loop body (index.js lines 245-251):
`doRenderTarget( smoothShader, alternateRenderTarget )` reading the current
texture, then `doRenderTarget( smoothShader, currentRenderTarget )` reading
the alternate texture.  `f` is the smoothing shader's whole-grid transform. -/
def smoothIter (f : Grid W H → Grid W H) (db : DoubleBuffer W H) : DoubleBuffer W H :=
  { current := f (f db.current), alternate := f db.current }

/-- `n` passes of the `smoothWater` loop body. -/
def smoothWaterN (f : Grid W H → Grid W H) : ℕ → DoubleBuffer W H → DoubleBuffer W H
  | 0, db => db
  | n + 1, db => smoothIter f (smoothWaterN f n db)

/-- One invocation of `smoothWater` (index.js lines 241-252): the loop body
runs `for ( let i = 0; i < 10; i ++ )`. -/
def smoothWater (f : Grid W H → Grid W H) (db : DoubleBuffer W H) : DoubleBuffer W H :=
  smoothWaterN f 10 db

/-- One §4.2-style buffer step: write the kernel image of the current buffer
into the alternate target, then swap roles (the shape of `computeTick`). -/
def applySwap (f : Grid W H → Grid W H) (db : DoubleBuffer W H) : DoubleBuffer W H :=
  { current := f db.current, alternate := db.current }

/-- `n` §4.2-style apply-and-swap steps. -/
def applySwapN (f : Grid W H → Grid W H) : ℕ → DoubleBuffer W H → DoubleBuffer W H
  | 0, db => db
  | n + 1, db => applySwap f (applySwapN f n db)

/-- The smoothing pass as claim C5 words it: exactly 10 iterations, each
applying the kernel once to the current buffer, writing the alternate buffer
and swapping — the §4.2 discipline. -/
def smoothWaterClaimed (f : Grid W H → Grid W H) (db : DoubleBuffer W H) :
    DoubleBuffer W H :=
  applySwapN f 10 db

/-- `n` direct applications of a grid transform (the current-buffer trajectory
of `applySwapN`). -/
def gridIter (f : Grid W H → Grid W H) : ℕ → Grid W H → Grid W H
  | 0, g => g
  | n + 1, g => f (gridIter f n g)

/-- A 2×2 two-value pattern (equal values on the diagonal): an eigenvector
family of the smoothing kernel on the 2×2 torus, used for concrete runs. -/
def diagPat (a b : ℚ) : Grid 2 2 := fun i j =>
  if i.val = j.val then ⟨a, a, 0, 1⟩ else ⟨b, b, 0, 1⟩

/-- The scalar two-value dynamics of `smoothKernel` on `diagPat`:
`(a, b) ↦ ((a + 4b)/5, (b + 4a)/5)`. -/
def blurPair (p : ℚ × ℚ) : ℚ × ℚ := ((p.1 + 4 * p.2) / 5, (p.2 + 4 * p.1) / 5)

/-- Iterated `blurPair`. -/
def blurPairIter : ℕ → ℚ × ℚ → ℚ × ℚ
  | 0, p => p
  | n + 1, p => blurPair (blurPairIter n p)

/-- The octave accumulation loop shared by every scene's `fillTexture`
(e.g. index.js lines 211-222):
`r += multR * noise( x * mult, y * mult ); multR *= ampAt i; mult *= freqMul`.
Arguments after `y`: remaining octaves, octave index `i`, current amplitude
`multR`, current frequency `mult`.  The simplex noise generator is the
functional parameter `nf`. -/
def noiseOct (nf : ℚ → ℚ → ℚ) (ampAt : ℕ → ℚ) (freqMul : ℚ) (x y : ℚ) :
    ℕ → ℕ → ℚ → ℚ → ℚ
  | 0, _, _, _ => 0
  | k + 1, i, multR, mult =>
      multR * nf (x * mult) (y * mult)
        + noiseOct nf ampAt freqMul x y k (i + 1) (multR * ampAt i) (mult * freqMul)

/-- The three per-scene octave ingredients of a `fillTexture` noise loop:
octave count, the amplitude multiplier applied after octave `i`, and the
frequency multiplier. -/
structure OctaveParams where
  octaves : ℕ
  ampAt : ℕ → ℚ
  freqMul : ℚ

/-- index.js `fillTexture` (lines 211-222): 15 octaves,
`multR *= 0.53 + 0.025 * i`, `mult *= 1.25`. -/
def octIdx1 : OctaveParams := ⟨15, fun i => 53/100 + 25/1000 * i, 125/100⟩

/-- The second scene bundled in index.js (`layeredNoise`, lines 462-473):
10 octaves, `multR *= 0.5`, `mult *= 2`. -/
def octIdx2 : OctaveParams := ⟨10, fun _ => 1/2, 2⟩

/-- index3.js `fillTexture` (lines 216-227): 15 octaves,
`multR *= 0.53 + 0.025 * i`, `mult *= 1.25`. -/
def octIdx3 : OctaveParams := ⟨15, fun i => 53/100 + 25/1000 * i, 125/100⟩

/-- index5.js `fillTexture` (lines 270-280): 2 octaves,
`multR *= 0.53 + 0.025 * i`, `mult *= 1.25`. -/
def octIdx5 : OctaveParams := ⟨2, fun i => 53/100 + 25/1000 * i, 125/100⟩

/-- Pool scene `fillTexture` (part_000 lines 350-361): 10 octaves,
`multR *= 0.3 + 0.025 * i`, `mult *= 1.25`. -/
def octPool : OctaveParams := ⟨10, fun i => 3/10 + 25/1000 * i, 125/100⟩

/-- The amplitude (`multR`) entering octave `n`, starting from the scene's
`waterMaxHeight`. -/
def ampSeq (p : OctaveParams) (maxH : ℚ) : ℕ → ℚ
  | 0 => maxH
  | n + 1 => ampSeq p maxH n * p.ampAt n

/-- The per-scene layered noise value, `waterMaxHeight` as in the code:
index.js uses 10, the others 2, 2, 2 and 0.8; all start `mult` at 0.025. -/
def noiseIdx1 (nf : ℚ → ℚ → ℚ) (x y : ℚ) : ℚ :=
  noiseOct nf octIdx1.ampAt octIdx1.freqMul x y octIdx1.octaves 0 10 (25/1000)

/-- Layered noise of the second index.js scene. -/
def noiseIdx2 (nf : ℚ → ℚ → ℚ) (x y : ℚ) : ℚ :=
  noiseOct nf octIdx2.ampAt octIdx2.freqMul x y octIdx2.octaves 0 2 (25/1000)

/-- Layered noise of index3.js. -/
def noiseIdx3 (nf : ℚ → ℚ → ℚ) (x y : ℚ) : ℚ :=
  noiseOct nf octIdx3.ampAt octIdx3.freqMul x y octIdx3.octaves 0 2 (25/1000)

/-- Layered noise of index5.js. -/
def noiseIdx5 (nf : ℚ → ℚ → ℚ) (x y : ℚ) : ℚ :=
  noiseOct nf octIdx5.ampAt octIdx5.freqMul x y octIdx5.octaves 0 2 (25/1000)

/-- Layered noise of the pool scene. -/
def noisePool (nf : ℚ → ℚ → ℚ) (x y : ℚ) : ℚ :=
  noiseOct nf octPool.ampAt octPool.freqMul x y octPool.octaves 0 (8/10) (25/1000)

/-- index.js `fillTexture` (lines 224-239): at texel (i, j) the noise is
sampled at `( i * 128 / WIDTH, j * 128 / HEIGHT )` and written to both the
`x` and `y` components (`pixels[p+1] = pixels[p+0]`); `z = 0`, `w = 1`. -/
def fillTexture1 (nf : ℚ → ℚ → ℚ) (W H : ℕ) : Grid W H := fun i j =>
  let n := noiseIdx1 nf ((i : ℕ) * 128 / (W : ℚ)) ((j : ℕ) * 128 / (H : ℚ))
  ⟨n, n, 0, 1⟩

/-- `fillTexture` of the second index.js scene (lines 475-490):
`pixels[p+1] = 0`. -/
def fillTexture2 (nf : ℚ → ℚ → ℚ) (W H : ℕ) : Grid W H := fun i j =>
  ⟨noiseIdx2 nf ((i : ℕ) * 128 / (W : ℚ)) ((j : ℕ) * 128 / (H : ℚ)), 0, 0, 1⟩

/-- index3.js `fillTexture` (lines 229-244): `pixels[p+1] = 0`. -/
def fillTexture3 (nf : ℚ → ℚ → ℚ) (W H : ℕ) : Grid W H := fun i j =>
  ⟨noiseIdx3 nf ((i : ℕ) * 128 / (W : ℚ)) ((j : ℕ) * 128 / (H : ℚ)), 0, 0, 1⟩

/-- index5.js `fillTexture` (lines 282-297): `pixels[p+1] = 0`. -/
def fillTexture5 (nf : ℚ → ℚ → ℚ) (W H : ℕ) : Grid W H := fun i j =>
  ⟨noiseIdx5 nf ((i : ℕ) * 128 / (W : ℚ)) ((j : ℕ) * 128 / (H : ℚ)), 0, 0, 1⟩

/-- Pool scene `fillTexture` (part_000 lines 363-378): `pixels[p+1] = 0`. -/
def fillTexturePool (nf : ℚ → ℚ → ℚ) (W H : ℕ) : Grid W H := fun i j =>
  ⟨noisePool nf ((i : ℕ) * 128 / (W : ℚ)) ((j : ℕ) * 128 / (H : ℚ)), 0, 0, 1⟩

/-- The sentinel as stored in the `mousePos` uniform (rational model). -/
def sentinelQ : ℚ × ℚ := (10000, 10000)

/-- The per-tick mouse mapping of index.js `updateScene` (lines 267-285): if
`mouseMoved` is set, raycast (a hit maps to the intersection's world (x, z),
a miss to the sentinel) and clear the flag; otherwise the sentinel.  The
raycast outcome is the external input `hit`.  Returns the `mousePos` uniform
and the new `mouseMoved` flag. -/
def updateMouseUniform (moved : Bool) (hit : Option (ℚ × ℚ)) : (ℚ × ℚ) × Bool :=
  if moved then
    (match hit with
      | some p => p
      | none => sentinelQ, false)
  else (sentinelQ, false)

/-- The per-tick mouse logic of index5.js `updateScene` (lines 329-348): the
uniform gets the stored `mouseCoords` if the flag is set, else the sentinel;
afterwards, in the ambient window (`elapsed % 5 <= 0.5`),
`setMouseCoords( randX, randY )` re-asserts a poke at the randomized target
(offset by half the bounds, `BOUNDS_W = 1000`, `BOUNDS_H = 500`) for the next
tick.  Returns (uniform, new flag, new coords). -/
def updateMouseUniform5 (moved : Bool) (coords : ℚ × ℚ) (elapsedMod5 : ℚ)
    (randX randY : ℚ) : (ℚ × ℚ) × Bool × (ℚ × ℚ) :=
  let pos := if moved then coords else sentinelQ
  if elapsedMod5 ≤ 1/2 then (pos, true, (randX - 1000/2, randY - 500/2))
  else (pos, false, coords)

end WaterRipples

namespace WaterRipples

/-- Claim C1: The propagation kernel is local (its output at a cell depends only on the
four neighbours' current heights and the cell's own (current, previous) pair),
it computes `(0.5*(north+south+east+west) - previous)*viscosity + excitation`,
and on a 4×4 toroidal grid with viscosity 0.98, all heights 1.0 with zero
velocity and no excitation, every cell's new height is 0.98. -/
theorem kernel_locality_formula_and_closed_form_check
    {W H : ℕ} [NeZero W] [NeZero H]
    (visc : ℚ) (exc : Fin W → Fin H → ℚ) (g g' : Grid W H) (i : Fin W) (j : Fin H)
    (hN : (north g i j).x = (north g' i j).x)
    (hS : (south g i j).x = (south g' i j).x)
    (hE : (east g i j).x = (east g' i j).x)
    (hW : (west g i j).x = (west g' i j).x)
    (hself : (g i j).x = (g' i j).x ∧ (g i j).y = (g' i j).y) :
    newHeight visc exc g i j = newHeight visc exc g' i j ∧
    newHeight visc exc g i j =
      (0.5 * ((north g i j).x + (south g i j).x + (east g i j).x + (west g i j).x)
        - (g i j).y) * visc + exc i j ∧
    (∀ i' j' : Fin 4, newHeight (98/100) (fun _ _ => 0) (onesGrid 4 4) i' j' = 98/100) := by
  refine ⟨?_, ?_, ?_⟩
  · simp only [newHeight, hN, hS, hE, hW, hself.2]
  · simp only [newHeight]; ring
  · intro i' j'
    simp only [newHeight, onesGrid, north, south, east, west]
    norm_num

/-- Witness for C1 at concrete inputs: both grids the all-ones 4×4 grid. -/
theorem kernel_locality_witness :
    ((north (onesGrid 4 4) 0 0).x = (north (onesGrid 4 4) 0 0).x) ∧
    newHeight (98/100) (fun _ _ => 0) (onesGrid 4 4) 0 0 = 98/100 := by
  refine ⟨rfl, ?_⟩
  exact (kernel_locality_formula_and_closed_form_check (98/100) (fun _ _ => 0)
    (onesGrid 4 4) (onesGrid 4 4) 0 0 rfl rfl rfl rfl ⟨rfl, rfl⟩).2.2 0 0

/-- Claim C2: After one completed tick, every cell of the new current buffer carries the
kernel's fresh `newHeight` in its `x` component and the cell's pre-tick
current height in its `y` component. -/
theorem tick_swap_correctness {W H : ℕ} [NeZero W] [NeZero H]
    (visc : ℚ) (exc : Fin W → Fin H → ℚ) (db : DoubleBuffer W H)
    (i : Fin W) (j : Fin H) :
    ((computeTick visc exc db).current i j).x = newHeight visc exc db.current i j ∧
    ((computeTick visc exc db).current i j).y = (db.current i j).x := by
  exact ⟨rfl, rfl⟩

/-- Claim C10: A propagation tick preserves the `z` and `w` components of every cell:
the kernel writes back the sampled values verbatim. -/
theorem tick_preserves_zw {W H : ℕ} [NeZero W] [NeZero H]
    (visc : ℚ) (exc : Fin W → Fin H → ℚ) (db : DoubleBuffer W H)
    (i : Fin W) (j : Fin H) :
    ((computeTick visc exc db).current i j).z = (db.current i j).z ∧
    ((computeTick visc exc db).current i j).w = (db.current i j).w := by
  exact ⟨rfl, rfl⟩

/-- Witness for C2 on the 4×4 all-ones double buffer at cell (0,0). -/
theorem tick_swap_correctness_witness :
    ((computeTick (98/100) (fun _ _ => 0) ⟨onesGrid 4 4, onesGrid 4 4⟩).current 0 0).x
      = newHeight (98/100) (fun _ _ => 0) (onesGrid 4 4) 0 0 ∧
    ((computeTick (98/100) (fun _ _ => 0) ⟨onesGrid 4 4, onesGrid 4 4⟩).current 0 0).y
      = ((onesGrid 4 4) 0 0).x :=
  tick_swap_correctness (98/100) (fun _ _ => 0) ⟨onesGrid 4 4, onesGrid 4 4⟩ 0 0

/-- Witness for C10 on the 4×4 all-ones double buffer at cell (0,0). -/
theorem tick_preserves_zw_witness :
    ((computeTick (98/100) (fun _ _ => 0) ⟨onesGrid 4 4, onesGrid 4 4⟩).current 0 0).z
      = ((onesGrid 4 4) 0 0).z ∧
    ((computeTick (98/100) (fun _ _ => 0) ⟨onesGrid 4 4, onesGrid 4 4⟩).current 0 0).w
      = ((onesGrid 4 4) 0 0).w :=
  tick_preserves_zw (98/100) (fun _ _ => 0) ⟨onesGrid 4 4, onesGrid 4 4⟩ 0 0

theorem abs_x_le_maxAbs {W H : ℕ} [NeZero W] [NeZero H]
    (g : Grid W H) (i : Fin W) (j : Fin H) :
    |(g i j).x| ≤ maxAbs g :=
  Finset.le_sup' (fun p : Fin W × Fin H => |(g p.1 p.2).x|) (Finset.mem_univ (i, j))

theorem maxAbs_le_of_forall {W H : ℕ} [NeZero W] [NeZero H]
    (g : Grid W H) (B : ℚ) (h : ∀ i j, |(g i j).x| ≤ B) : maxAbs g ≤ B :=
  Finset.sup'_le _ _ fun p _ => h p.1 p.2

/-- Claim C4 counterexample: the ±1/1000 zero-velocity checkerboard with
viscosity 0.98 and no excitation has max|height| 1/1000, but after one tick
the cell (0,0) has height -147/50000 (= -2.94/1000), so max|height| grew —
the claimed non-increase fails. -/
theorem boundedness_counterexample :
    (∀ i j : Fin 2, (checker2 i j).y = (checker2 i j).x) ∧
    (98 : ℚ)/100 < 1 ∧
    maxAbs checker2 = 1/1000 ∧
    ((computeTick (98/100) (fun _ _ => 0) ⟨checker2, checker2⟩).current 0 0).x
      = -147/50000 ∧
    ¬ maxAbs (computeTick (98/100) (fun _ _ => 0) ⟨checker2, checker2⟩).current
        ≤ maxAbs checker2 := by
  have h01 : (0 : Fin 2) + 1 = 1 := rfl
  have h0m1 : (0 : Fin 2) - 1 = 1 := rfl
  have hpre : maxAbs checker2 = 1/1000 := by
    apply le_antisymm
    · apply maxAbs_le_of_forall
      intro i j
      simp only [checker2]
      split <;> (rw [abs_le]; constructor <;> norm_num)
    · have h := abs_x_le_maxAbs checker2 0 0
      simp only [checker2, if_pos rfl] at h
      rwa [abs_of_nonneg (by norm_num)] at h
  have hcell : ((computeTick (98/100) (fun _ _ => 0) ⟨checker2, checker2⟩).current 0 0).x
      = -147/50000 := by
    show newHeight (98/100) (fun _ _ => 0) checker2 0 0 = -147/50000
    simp only [newHeight, north, south, east, west, h01, h0m1, checker2]
    norm_num
  refine ⟨?_, by norm_num, hpre, hcell, ?_⟩
  · intro i j
    simp only [checker2]
    split <;> rfl
  · intro hle
    have h := abs_x_le_maxAbs
      (computeTick (98/100) (fun _ _ => 0) ⟨checker2, checker2⟩).current 0 0
    rw [hcell, abs_of_nonpos (by norm_num)] at h
    rw [hpre] at hle
    linarith

/-- Claim C4 (amended): from a zero-velocity field with no excitation and
viscosity ≥ 0, one tick's new height at any cell is bounded by
`3 * viscosity * max|height|`; max|height| itself can grow (by up to a factor
`3 * viscosity` per tick), it is not non-increasing. -/
theorem boundedness_amended {W H : ℕ} [NeZero W] [NeZero H]
    (visc : ℚ) (hv : 0 ≤ visc) (g : Grid W H)
    (hflat : ∀ i j, (g i j).y = (g i j).x) (i : Fin W) (j : Fin H) :
    |newHeight visc (fun _ _ => 0) g i j| ≤ 3 * visc * maxAbs g := by
  have hN := abs_le.mp (abs_x_le_maxAbs g i (j + 1))
  have hS := abs_le.mp (abs_x_le_maxAbs g i (j - 1))
  have hE := abs_le.mp (abs_x_le_maxAbs g (i + 1) j)
  have hW := abs_le.mp (abs_x_le_maxAbs g (i - 1) j)
  have hself := abs_le.mp (abs_x_le_maxAbs g i j)
  rw [abs_le]
  simp only [newHeight, north, south, east, west, hflat i j, add_zero]
  constructor <;> nlinarith [hN.1, hN.2, hS.1, hS.2, hE.1, hE.2, hW.1, hW.2,
    hself.1, hself.2]

/-- Witness for the amended C4 at the all-ones 2×2 grid with viscosity 0.98. -/
theorem boundedness_amended_witness :
    (0 : ℚ) ≤ 98/100 ∧ (∀ i j : Fin 2, ((onesGrid 2 2) i j).y = ((onesGrid 2 2) i j).x) ∧
    |newHeight (98/100) (fun _ _ => 0) (onesGrid 2 2) 0 0| ≤ 3 * (98/100) * maxAbs (onesGrid 2 2) :=
  ⟨by norm_num, fun _ _ => rfl,
    boundedness_amended (98/100) (by norm_num) (onesGrid 2 2) (fun _ _ => rfl) 0 0⟩

/-- Claim C3: the excitation contribution
`(cos(clamp(d*π/radius, 0, π)) + 1) * strength` is 0 at every distance
`d ≥ radius`, equals `2*strength` at distance 0, is non-increasing in the
distance, and with the sentinel mouse position (10000, 10000) it is zero at
every cell of the grid (world extents up to 1000 units, radius up to 9000). -/
theorem excitation_falloff (radius strength : ℝ) (hr : 0 < radius) (hs : 0 ≤ strength) :
    (∀ d, radius ≤ d → excitationOfDist radius strength d = 0) ∧
    excitationOfDist radius strength 0 = 2 * strength ∧
    (∀ d₁ d₂, 0 ≤ d₁ → d₁ ≤ d₂ →
      excitationOfDist radius strength d₂ ≤ excitationOfDist radius strength d₁) ∧
    (∀ (uv : ℝ × ℝ) (gw gh : ℝ), 0 ≤ uv.1 → uv.1 ≤ 1 → 0 ≤ uv.2 → uv.2 ≤ 1 →
      0 < gw → gw ≤ 1000 → 0 < gh → gh ≤ 1000 → radius ≤ 9000 →
      excitationOfDist radius strength (cellMouseDist uv gw gh sentinelMouse) = 0) := by
  have hzero : ∀ d, radius ≤ d → excitationOfDist radius strength d = 0 := by
    intro d hd
    have hphase : Real.pi ≤ d * Real.pi / radius := by
      rw [le_div_iff₀ hr]
      nlinarith [Real.pi_pos]
    have : glslClamp (d * Real.pi / radius) 0 Real.pi = Real.pi := by
      unfold glslClamp
      rw [max_eq_left (le_trans Real.pi_nonneg hphase), min_eq_right hphase]
    rw [excitationOfDist, this, Real.cos_pi]
    ring
  refine ⟨hzero, ?_, ?_, ?_⟩
  · have : glslClamp (0 * Real.pi / radius) 0 Real.pi = 0 := by
      unfold glslClamp
      rw [zero_mul, zero_div, max_self, min_eq_left Real.pi_nonneg]
    rw [excitationOfDist, this, Real.cos_zero]
    ring
  · intro d₁ d₂ h0 h12
    have hphase : d₁ * Real.pi / radius ≤ d₂ * Real.pi / radius := by
      gcongr
    have hc1 : (0:ℝ) ≤ glslClamp (d₁ * Real.pi / radius) 0 Real.pi :=
      le_min (le_max_right _ _) Real.pi_nonneg
    have hc2 : glslClamp (d₂ * Real.pi / radius) 0 Real.pi ≤ Real.pi :=
      min_le_right _ _
    have hcc : glslClamp (d₁ * Real.pi / radius) 0 Real.pi ≤
        glslClamp (d₂ * Real.pi / radius) 0 Real.pi :=
      min_le_min (max_le_max hphase le_rfl) le_rfl
    have := Real.cos_le_cos_of_nonneg_of_le_pi hc1 hc2 hcc
    unfold excitationOfDist
    nlinarith
  · intro uv gw gh hu0 hu1 hv0 hv1 hgw0 hgw1 hgh0 hgh1 hr9
    apply hzero
    have hdx : (uv.1 - 0.5) * gw - (10000:ℝ) ≤ -9500 := by nlinarith
    have hsq : (9500:ℝ)^2 ≤ ((uv.1 - 0.5) * gw - 10000)^2 := by nlinarith
    have h1 : (9500:ℝ) ≤ Real.sqrt (((uv.1 - 0.5) * gw - 10000)^2) := by
      rw [Real.sqrt_sq_eq_abs]
      calc (9500:ℝ) ≤ -((uv.1 - 0.5) * gw - 10000) := by linarith
        _ ≤ |(uv.1 - 0.5) * gw - 10000| := neg_le_abs _
    have h2 : Real.sqrt (((uv.1 - 0.5) * gw - 10000)^2) ≤
        cellMouseDist uv gw gh sentinelMouse := by
      unfold cellMouseDist sentinelMouse
      apply Real.sqrt_le_sqrt
      nlinarith [sq_nonneg ((uv.2 - 0.5) * gh - (-(10000:ℝ)))]
    calc radius ≤ 9000 := hr9
      _ ≤ 9500 := by norm_num
      _ ≤ _ := le_trans h1 h2

/-- Witness for C3 at radius 20, strength 1: the contribution at distance 0
is 2. -/
theorem excitation_falloff_witness :
    (0:ℝ) < 20 ∧ (0:ℝ) ≤ 1 ∧ excitationOfDist 20 1 0 = 2 * 1 :=
  ⟨by norm_num, by norm_num, (excitation_falloff 20 1 (by norm_num) (by norm_num)).2.1⟩

theorem smoothWaterN_eq_applySwapN {W H : ℕ} (f : Grid W H → Grid W H) :
    ∀ (n : ℕ) (db : DoubleBuffer W H), smoothWaterN f n db = applySwapN f (2 * n) db := by
  intro n
  induction n with
  | zero => intro db; rfl
  | succ n ih =>
    intro db
    have harith : 2 * (n + 1) = 2 * n + 1 + 1 := by ring
    rw [harith]
    show smoothIter f (smoothWaterN f n db) = applySwap f (applySwapN f (2 * n + 1) db)
    rw [ih db]
    show smoothIter f (applySwapN f (2 * n) db) = applySwap f (applySwap f (applySwapN f (2 * n) db))
    rfl

theorem applySwapN_current {W H : ℕ} (f : Grid W H → Grid W H) :
    ∀ (n : ℕ) (db : DoubleBuffer W H),
      (applySwapN f n db).current = gridIter f n db.current := by
  intro n
  induction n with
  | zero => intro db; rfl
  | succ n ih =>
    intro db
    show f (applySwapN f n db).current = f (gridIter f n db.current)
    rw [ih db]

theorem smoothKernel_diagPat (a b : ℚ) :
    smoothKernel (diagPat a b) = diagPat ((a + 4 * b) / 5) ((b + 4 * a) / 5) := by
  have key : ∀ i j : Fin 2, smoothKernel (diagPat a b) i j =
      (((((diagPat a b i j).add (diagPat a b i (j + 1))).add (diagPat a b i (j - 1))).add
        (diagPat a b (i + 1) j)).add (diagPat a b (i - 1) j)).div 5 := fun _ _ => rfl
  have a01 : (0 : Fin 2) + 1 = 1 := rfl
  have a0m1 : (0 : Fin 2) - 1 = 1 := rfl
  have a11 : (1 : Fin 2) + 1 = 0 := rfl
  have a1m1 : (1 : Fin 2) - 1 = 0 := rfl
  have main : ∀ i j : Fin 2, smoothKernel (diagPat a b) i j
      = diagPat ((a + 4 * b) / 5) ((b + 4 * a) / 5) i j := by
    rw [Fin.forall_fin_two]
    constructor <;> (rw [Fin.forall_fin_two]; constructor) <;>
      · rw [key]
        simp only [a01, a0m1, a11, a1m1, diagPat, Fin.val_zero, Fin.val_one]
        norm_num [Cell.add, Cell.div, Cell.mk.injEq]
        ring
  funext i j
  exact main i j

theorem gridIter_smoothKernel_diagPat :
    ∀ (n : ℕ) (a b : ℚ), gridIter smoothKernel n (diagPat a b)
      = diagPat (blurPairIter n (a, b)).1 (blurPairIter n (a, b)).2 := by
  intro n
  induction n with
  | zero => intro a b; rfl
  | succ n ih =>
    intro a b
    show smoothKernel (gridIter smoothKernel n (diagPat a b)) = _
    rw [ih, smoothKernel_diagPat]
    show _ = diagPat (blurPair (blurPairIter n (a, b))).1 (blurPair (blurPairIter n (a, b))).2
    rfl

theorem blurPairIter_closed :
    ∀ n : ℕ, blurPairIter n (1, 0) = ((1 + (-3/5 : ℚ)^n)/2, (1 - (-3/5 : ℚ)^n)/2) := by
  intro n
  induction n with
  | zero => norm_num [blurPairIter]
  | succ n ih =>
    show blurPair (blurPairIter n (1, 0)) = _
    rw [ih]
    simp only [blurPair, Prod.mk.injEq, pow_succ]
    constructor <;> ring

/-- Claim C5 counterexample: running the code's `smoothWater` (10 loop
iterations, two kernel applications each) on a concrete 2×2 pattern does not
equal 10 single-application iterations with the §4.2 apply-and-swap
discipline — the two disagree at cell (0,0). -/
theorem smoothing_pass_counterexample :
    ((smoothWater smoothKernel ⟨diagPat 1 0, diagPat 1 0⟩).current 0 0).x
      ≠ ((smoothWaterClaimed smoothKernel ⟨diagPat 1 0, diagPat 1 0⟩).current 0 0).x := by
  have h20 : (smoothWater smoothKernel ⟨diagPat 1 0, diagPat 1 0⟩).current
      = gridIter smoothKernel 20 (diagPat 1 0) := by
    have h := smoothWaterN_eq_applySwapN smoothKernel 10 ⟨diagPat 1 0, diagPat 1 0⟩
    norm_num at h
    show (smoothWaterN smoothKernel 10 _).current = _
    rw [h, applySwapN_current]
  have h10 : (smoothWaterClaimed smoothKernel ⟨diagPat 1 0, diagPat 1 0⟩).current
      = gridIter smoothKernel 10 (diagPat 1 0) := by
    show (applySwapN smoothKernel 10 _).current = _
    rw [applySwapN_current]
  rw [h20, h10, gridIter_smoothKernel_diagPat, gridIter_smoothKernel_diagPat,
    blurPairIter_closed, blurPairIter_closed]
  simp only [diagPat, if_pos rfl]
  norm_num

/-- Claim C5 (amended): one invocation of the smoothing pass runs 10 loop
iterations, but each iteration applies the local-average kernel twice (into
the alternate target from the current texture, then back into the current
target from the alternate), so the invocation equals 20 — not 10 —
apply-and-swap steps of the §4.2 discipline, for any per-grid kernel `f`. -/
theorem smoothing_pass_amended {W H : ℕ} (f : Grid W H → Grid W H)
    (db : DoubleBuffer W H) :
    smoothWater f db = applySwapN f 20 db ∧
    (smoothWater f db).current = gridIter f 20 db.current := by
  have h : smoothWater f db = applySwapN f 20 db := by
    have h := smoothWaterN_eq_applySwapN f 10 db
    norm_num at h
    exact h
  exact ⟨h, by rw [h, applySwapN_current]⟩

theorem noiseOct_const_one_nonneg (ampAt : ℕ → ℚ) (hamp : ∀ i, 0 ≤ ampAt i)
    (μ x y : ℚ) :
    ∀ (k i : ℕ) (multR mult : ℚ), 0 ≤ multR →
      0 ≤ noiseOct (fun _ _ => 1) ampAt μ x y k i multR mult := by
  intro k
  induction k with
  | zero => intro i mR m _; simp [noiseOct]
  | succ k ih =>
    intro i mR m hmR
    have hrest := ih (i + 1) (mR * ampAt i) (m * μ) (mul_nonneg hmR (hamp i))
    show 0 ≤ mR * 1 + _
    rw [mul_one]
    exact add_nonneg hmR hrest

theorem noiseOct_const_one_pos (ampAt : ℕ → ℚ) (hamp : ∀ i, 0 ≤ ampAt i)
    (μ x y : ℚ) (k i : ℕ) (multR mult : ℚ) (hmR : 0 < multR) :
    0 < noiseOct (fun _ _ => 1) ampAt μ x y (k + 1) i multR mult := by
  have hrest := noiseOct_const_one_nonneg ampAt hamp μ x y k (i + 1)
    (multR * ampAt i) (mult * μ) (mul_nonneg hmR.le (hamp i))
  show 0 < multR * 1 + _
  rw [mul_one]
  linarith

/-- Claim C6 counterexample: in the index3.js scene (cited by the claim), the
seeded `previous` component is 0 while `current` carries the (generally
nonzero) noise value: with the constant-1 noise generator, cell (0,0) has
`previous = 0` but `current > 0`. -/
theorem init_velocity_counterexample :
    ((fillTexture3 (fun _ _ => 1) 4 4) 0 0).y = 0 ∧
    0 < ((fillTexture3 (fun _ _ => 1) 4 4) 0 0).x ∧
    ((fillTexture3 (fun _ _ => 1) 4 4) 0 0).y ≠ ((fillTexture3 (fun _ _ => 1) 4 4) 0 0).x := by
  have hamp : ∀ i : ℕ, 0 ≤ octIdx3.ampAt i := by
    intro i
    simp only [octIdx3]
    positivity
  have hx : 0 < ((fillTexture3 (fun _ _ => 1) 4 4) 0 0).x := by
    show 0 < noiseIdx3 (fun _ _ => 1) _ _
    exact noiseOct_const_one_pos octIdx3.ampAt hamp octIdx3.freqMul _ _ 14 0 2 (25/1000)
      (by norm_num)
  exact ⟨rfl, hx, fun h => absurd hx (by rw [← h]; exact lt_irrefl 0)⟩

/-- Claim C6 (amended): only the index.js base scene initializes `previous`
to the seeded noise value (`pixels[p+1] = pixels[p+0]`, zero initial
velocity); the other four scene variants initialize `previous` to 0, so their
initial velocity is nonzero wherever the seeded height is. -/
theorem init_components_amended (nf : ℚ → ℚ → ℚ) (W H : ℕ) (i : Fin W) (j : Fin H) :
    ((fillTexture1 nf W H) i j).y = ((fillTexture1 nf W H) i j).x ∧
    ((fillTexture2 nf W H) i j).y = 0 ∧
    ((fillTexture3 nf W H) i j).y = 0 ∧
    ((fillTexture5 nf W H) i j).y = 0 ∧
    ((fillTexturePool nf W H) i j).y = 0 :=
  ⟨rfl, rfl, rfl, rfl, rfl⟩

/-- Claim C7 counterexample: no fixed octave-independent amplitude multiplier
in [0.5, 0.53] reproduces the amplitude sequences of the pool scene
(`multR *= 0.3 + 0.025 * i`, forcing c = 0.3 at octave 0) or of index.js
(`multR *= 0.53 + 0.025 * i`, forcing c = 0.555 at octave 1). -/
theorem octave_multiplier_counterexample :
    (¬ ∃ c : ℚ, (1/2 ≤ c ∧ c ≤ 53/100) ∧
      ∀ i : ℕ, i + 1 < octPool.octaves →
        ampSeq octPool (8/10) (i + 1) = c * ampSeq octPool (8/10) i) ∧
    (¬ ∃ c : ℚ, (1/2 ≤ c ∧ c ≤ 53/100) ∧
      ∀ i : ℕ, i + 1 < octIdx1.octaves →
        ampSeq octIdx1 10 (i + 1) = c * ampSeq octIdx1 10 i) := by
  constructor
  · rintro ⟨c, ⟨hc1, _⟩, hall⟩
    have h0 := hall 0 (by norm_num [octPool])
    simp [ampSeq, octPool] at h0
    linarith
  · rintro ⟨c, ⟨_, hc2⟩, hall⟩
    have h1 := hall 1 (by norm_num [octIdx1])
    simp [ampSeq, octIdx1] at h1
    linarith

/-- Claim C7 (amended): across the five scene seeders, the frequency
multiplier is a fixed per-scene constant in [1.25, 2.0] and the octave count
lies in [2, 15]; but the amplitude multiplier is fixed only in the second
index.js scene (0.5) — in index.js/index3.js/index5.js it is the
octave-dependent 0.53 + 0.025·i (already 0.555 ∉ [0.5, 0.53] at i = 1) and in
the pool scene 0.3 + 0.025·i (0.3 ∉ [0.5, 0.53] at i = 0). -/
theorem octave_structure_amended :
    (2 ≤ octIdx1.octaves ∧ octIdx1.octaves ≤ 15 ∧
      5/4 ≤ octIdx1.freqMul ∧ octIdx1.freqMul ≤ 2) ∧
    (2 ≤ octIdx2.octaves ∧ octIdx2.octaves ≤ 15 ∧
      5/4 ≤ octIdx2.freqMul ∧ octIdx2.freqMul ≤ 2) ∧
    (2 ≤ octIdx3.octaves ∧ octIdx3.octaves ≤ 15 ∧
      5/4 ≤ octIdx3.freqMul ∧ octIdx3.freqMul ≤ 2) ∧
    (2 ≤ octIdx5.octaves ∧ octIdx5.octaves ≤ 15 ∧
      5/4 ≤ octIdx5.freqMul ∧ octIdx5.freqMul ≤ 2) ∧
    (2 ≤ octPool.octaves ∧ octPool.octaves ≤ 15 ∧
      5/4 ≤ octPool.freqMul ∧ octPool.freqMul ≤ 2) ∧
    (∀ i : ℕ, octIdx2.ampAt i = 1/2) ∧
    (∀ i : ℕ, octIdx1.ampAt i = 53/100 + 25/1000 * i ∧
      octIdx3.ampAt i = 53/100 + 25/1000 * i ∧
      octIdx5.ampAt i = 53/100 + 25/1000 * i ∧
      octPool.ampAt i = 3/10 + 25/1000 * i) ∧
    (octIdx1.ampAt 1 = 111/200 ∧ ¬ octIdx1.ampAt 1 ≤ 53/100 ∧
      octPool.ampAt 0 = 3/10 ∧ ¬ 1/2 ≤ octPool.ampAt 0) ∧
    (∀ (p : OctaveParams) (maxH : ℚ) (n : ℕ),
      ampSeq p maxH (n + 1) = p.ampAt n * ampSeq p maxH n) := by
  refine ⟨?_, ?_, ?_, ?_, ?_, ?_, ?_, ?_, ?_⟩
  · norm_num [octIdx1]
  · norm_num [octIdx2]
  · norm_num [octIdx3]
  · norm_num [octIdx5]
  · norm_num [octPool]
  · intro i; rfl
  · intro i; exact ⟨rfl, rfl, rfl, rfl⟩
  · norm_num [octIdx1, octPool]
  · intro p maxH n
    show ampSeq p maxH n * p.ampAt n = _
    ring

theorem noiseOct_congr (nf₁ nf₂ : ℚ → ℚ → ℚ) (h : ∀ x y, nf₁ x y = nf₂ x y)
    (ampAt : ℕ → ℚ) (μ x y : ℚ) :
    ∀ (k i : ℕ) (multR mult : ℚ),
      noiseOct nf₁ ampAt μ x y k i multR mult = noiseOct nf₂ ampAt μ x y k i multR mult := by
  intro k
  induction k with
  | zero => intro i mR m; rfl
  | succ k ih =>
    intro i mR m
    show mR * nf₁ (x * m) (y * m) + _ = mR * nf₂ (x * m) (y * m) + _
    rw [h (x * m) (y * m), ih (i + 1) (mR * ampAt i) (m * μ)]

/-- Claim C8: the field seeding is deterministic — two runs whose noise
generators agree pointwise (same permutation seed) and which use the same
dimensions and coordinate mapping produce identical initial height fields,
in every scene variant. -/
theorem seeding_deterministic (nf₁ nf₂ : ℚ → ℚ → ℚ) (h : ∀ x y, nf₁ x y = nf₂ x y)
    (W H : ℕ) :
    fillTexture1 nf₁ W H = fillTexture1 nf₂ W H ∧
    fillTexture2 nf₁ W H = fillTexture2 nf₂ W H ∧
    fillTexture3 nf₁ W H = fillTexture3 nf₂ W H ∧
    fillTexture5 nf₁ W H = fillTexture5 nf₂ W H ∧
    fillTexturePool nf₁ W H = fillTexturePool nf₂ W H := by
  have h1 : ∀ x y, noiseIdx1 nf₁ x y = noiseIdx1 nf₂ x y := fun x y =>
    noiseOct_congr nf₁ nf₂ h _ _ x y _ _ _ _
  have h2 : ∀ x y, noiseIdx2 nf₁ x y = noiseIdx2 nf₂ x y := fun x y =>
    noiseOct_congr nf₁ nf₂ h _ _ x y _ _ _ _
  have h3 : ∀ x y, noiseIdx3 nf₁ x y = noiseIdx3 nf₂ x y := fun x y =>
    noiseOct_congr nf₁ nf₂ h _ _ x y _ _ _ _
  have h5 : ∀ x y, noiseIdx5 nf₁ x y = noiseIdx5 nf₂ x y := fun x y =>
    noiseOct_congr nf₁ nf₂ h _ _ x y _ _ _ _
  have hp : ∀ x y, noisePool nf₁ x y = noisePool nf₂ x y := fun x y =>
    noiseOct_congr nf₁ nf₂ h _ _ x y _ _ _ _
  refine ⟨?_, ?_, ?_, ?_, ?_⟩ <;> funext i j
  · simp only [fillTexture1, h1]
  · simp only [fillTexture2, h2]
  · simp only [fillTexture3, h3]
  · simp only [fillTexture5, h5]
  · simp only [fillTexturePool, hp]

/-- Witness for C8 with the constant-0 generator on a 4×4 grid. -/
theorem seeding_deterministic_witness :
    (∀ x y : ℚ, (fun _ _ => (0:ℚ)) x y = (fun _ _ => (0:ℚ)) x y) ∧
    fillTexture1 (fun _ _ => 0) 4 4 = fillTexture1 (fun _ _ => 0) 4 4 :=
  ⟨fun _ _ => rfl,
    (seeding_deterministic (fun _ _ => 0) (fun _ _ => 0) (fun _ _ => rfl) 4 4).1⟩

/-- Claim C9: with no freshly asserted interaction the mapper supplies the
sentinel (10000, 10000); the moved-flag is cleared every tick, so an asserted
position affects at most one tick unless re-asserted; and in the ambient
index5.js configuration the window `elapsed % 5 ≤ 0.5` re-asserts a poke at
the randomized target (offset to world coordinates) for the next tick, while
outside the window the flag stays cleared. -/
theorem excitation_mapper_temporal :
    (∀ hit, (updateMouseUniform false hit).1 = sentinelQ) ∧
    (∀ moved hit, (updateMouseUniform moved hit).2 = false) ∧
    (∀ moved hit hit', (updateMouseUniform (updateMouseUniform moved hit).2 hit').1 = sentinelQ) ∧
    (∀ (coords : ℚ × ℚ) (e rX rY : ℚ), (updateMouseUniform5 false coords e rX rY).1 = sentinelQ) ∧
    (∀ (moved : Bool) (coords : ℚ × ℚ) (e rX rY : ℚ), e ≤ 1/2 →
      (updateMouseUniform5 moved coords e rX rY).2.1 = true ∧
      (updateMouseUniform5 moved coords e rX rY).2.2 = (rX - 500, rY - 250)) ∧
    (∀ (moved : Bool) (coords : ℚ × ℚ) (e rX rY : ℚ), ¬ e ≤ 1/2 →
      (updateMouseUniform5 moved coords e rX rY).2.1 = false) := by
  refine ⟨?_, ?_, ?_, ?_, ?_, ?_⟩
  · intro hit; rfl
  · intro moved hit; cases moved <;> rfl
  · intro moved hit hit'
    have h : (updateMouseUniform moved hit).2 = false := by cases moved <;> rfl
    rw [h]
    rfl
  · intro coords e rX rY
    simp only [updateMouseUniform5]
    split <;> rfl
  · intro moved coords e rX rY he
    simp only [updateMouseUniform5, if_pos he]
    norm_num
  · intro moved coords e rX rY he
    simp only [updateMouseUniform5, if_neg he]

/-- Witness for C9 inside the ambient window (`elapsed % 5 = 0`). -/
theorem excitation_mapper_temporal_witness :
    ((0:ℚ) ≤ 1/2) ∧ (updateMouseUniform5 false (0, 0) 0 600 300).2.1 = true :=
  ⟨by norm_num,
    (excitation_mapper_temporal.2.2.2.2.1 false (0, 0) 0 600 300 (by norm_num)).1⟩

end WaterRipples
